import Mathlib

/-!
Verification of the reporting pipeline of `src/middlewared/middlewared/plugins/reporting.py`.

The Python module is shallowly embedded: every definition below is translated
from a specific function of the source file (named in its doc comment).
String processing is carried out on `List Char` (the `data` of a `String`),
because the byte-level Lean string primitives do not reduce in the kernel;
`String.data` / `String.mk` mediate at the boundary.  Python exceptions are
modelled with `Except`: `RuntimeError` and `KeyError` become `.error` values.
Filesystem facts (which `.rrd` files exist, which `/dev` nodes exist, what a
directory scan returned) are passed in as explicit arguments, since the code
reads them from the outside world.
-/

/-- Python `a < b` on single characters (code-point order), used through the
lexicographic tuple comparison that `list.sort(key=...)` performs. -/
def charsLeB : List Char → List Char → Bool
  | [], _ => true
  | _ :: _, [] => false
  | a :: as, b :: bs => if a = b then charsLeB as bs else decide (a < b)

/-- Python tuple comparison of an optional trailing-number component:
a 1-tuple `(prefix,)` compares below any 2-tuple `(prefix, n)` with the same
prefix, exactly as `none` is below `some n` here. -/
def optNatLeB : Option Nat → Option Nat → Bool
  | none, _ => true
  | some _, none => false
  | some m, some n => decide (m ≤ n)

/-- Python comparison of the key tuples produced by `RRDBase._sort_disks`:
lexicographic on (string prefix, optional numeric suffix). -/
def keyLeB (x y : List Char × Option Nat) : Bool :=
  if x.1 = y.1 then optNatLeB x.2 y.2 else charsLeB x.1 y.1

/-- Length of the maximal run of trailing decimal digits of a character list. -/
def trailingDigits (cs : List Char) : Nat :=
  (cs.reverse.takeWhile (fun c => c.isDigit)).length

/-- Integer value of a list of decimal digit characters, as Python `int` reads
the captured group `(\d+)`. -/
def digitsToNat (ds : List Char) : Nat :=
  ds.foldl (fun n c => n * 10 + (c.toNat - 48)) 0

/-- `RRDBase._sort_disks` (reporting.py:142-148): the sort key of one entry.
`RE_NAME_NUMBER`, the regex `(.+?)(\d+)$`, matches iff the entry ends in a
digit and has at least two characters; the non-greedy prefix is then the
shortest nonempty prefix whose remainder is all digits, i.e. everything before
the maximal trailing digit run (or a single leading character when the whole
entry is digits).  No match yields the 1-tuple `(entry,)`, a match yields
`(prefix, int(digits))`. -/
def diskKey (entry : String) : List Char × Option Nat :=
  let cs := entry.data
  let t := trailingDigits cs
  if t = 0 ∨ cs.length ≤ 1 then (cs, none)
  else
    let p := if t = cs.length then 1 else cs.length - t
    (cs.take p, some (digitsToNat (cs.drop p)))

/-- The ordering `list.sort(key=RRDBase._sort_disks)` sorts by. -/
def disksLe (a b : String) : Prop := keyLeB (diskKey a) (diskKey b) = true

instance : DecidableRel disksLe := fun a b => by unfold disksLe; infer_instance

/-- `ids.sort(key=RRDBase._sort_disks)`: a stable sort by `diskKey`. -/
def sort_disks (l : List String) : List String := l.insertionSort disksLe

/-- Python `s.startswith(p)`. -/
def strStartsWith (s p : String) : Bool := p.data.isPrefixOf s.data

/-- Python `entry.rsplit('-', 1)[-1]`: the substring after the last dash,
or the whole string when there is no dash. -/
def afterLastDash (s : String) : String :=
  ⟨(s.data.reverse.takeWhile (fun c => c ≠ '-')).reverse⟩

/-- Python `entry.split('-', 1)[-1]`: the substring after the first dash,
or the whole string when there is no dash. -/
def afterFirstDash (s : String) : String :=
  match s.data.dropWhile (fun c => c ≠ '-') with
  | [] => s
  | _ :: rest => ⟨rest⟩

/-- Python string replacement of `.rrd` by nothing: drop every occurrence
of `.rrd`. -/
def removeRrd : List Char → List Char
  | '.' :: 'r' :: 'r' :: 'd' :: rest => removeRrd rest
  | c :: rest => c :: removeRrd rest
  | [] => []

/-- `RE_DISK`, the regex `^[a-z]+[0-9]+$` (reporting.py:34). -/
def reDiskMatch (s : String) : Bool :=
  let cs := s.data
  let letters := cs.takeWhile (fun c => 'a' ≤ c && c ≤ 'z')
  let rest := cs.drop letters.length
  !letters.isEmpty && !rest.isEmpty && rest.all (fun c => c.isDigit)

/-- `RRD_BASE_PATH` (reporting.py:39). -/
def rrdBasePath : String := "/var/db/collectd/rrd/localhost"

/-- `DiskTempPlugin.get_identifiers` (reporting.py:363-370), as a function of
the `glob` scan over `disktemp-*` and of which files exist: keep entries
whose `temperature.rrd` exists, take the text after the last dash, sort. -/
def DiskTempPlugin.get_identifiers (scan : List String) (fsExists : String → Bool) :
    List String :=
  sort_disks ((scan.filter (fun entry => fsExists (entry ++ "/temperature.rrd"))).map
    afterLastDash)

/-- `InterfacePlugin.get_identifiers` (reporting.py:388-398), as a function of
the `glob` scan over `interface-*`, the configured interface names, and which
files exist. -/
def InterfacePlugin.get_identifiers (scan : List String) (ifaces : List String)
    (fsExists : String → Bool) : List String :=
  sort_disks (scan.filterMap (fun entry =>
    let ident := afterLastDash entry
    if ident ∈ ifaces && fsExists (entry ++ "/if_octets.rrd") then some ident else none))

/-- `DiskPlugin.get_identifiers` (reporting.py:527-539). -/
def DiskPlugin.get_identifiers (scan : List String) (devExists : String → Bool)
    (fsExists : String → Bool) : List String :=
  sort_disks (scan.filterMap (fun entry =>
    let ident := afterFirstDash entry
    if devExists ("/dev/" ++ ident) && !(strStartsWith ident "pass")
        && fsExists (entry ++ "/disk_octets.rrd") then
      some ident
    else none))

/-- `GeomStatBase.get_identifiers` (reporting.py:546-559). -/
def GeomStatBase.get_identifiers (scan : List String) (devExists : String → Bool) :
    List String :=
  sort_disks (scan.filterMap (fun entry =>
    let ident : String := ⟨removeRrd (afterFirstDash entry).data⟩
    if reDiskMatch ident && devExists ("/dev/" ++ ident)
        && !(strStartsWith ident "pass") then
      some ident
    else none))

/-- Python `path.strip('/')`. -/
def stripSlashes (cs : List Char) : List Char :=
  ((cs.dropWhile (fun c => c = '/')).reverse.dropWhile (fun c => c = '/')).reverse

/-- `DFPlugin.encode` (reporting.py:465-468). -/
def DFPlugin.encode (path : String) : String :=
  if path = "/" then "root"
  else ⟨(stripSlashes path.data).map (fun c => if c = '/' then '-' else c)⟩

/-- `DFPlugin.get_identifiers` (reporting.py:470-480), as a function of the
mount entries extracted from `df -t zfs` output and of which files exist.
Entries other than `/` or `/mnt...` are skipped; the result is appended in
scan order and — unlike every other discovery function here — never sorted. -/
def DFPlugin.get_identifiers (entries : List String) (fsExists : String → Bool) :
    List String :=
  entries.filter (fun entry =>
    (entry == "/" || strStartsWith entry "/mnt")
      && fsExists (rrdBasePath ++ "/df-" ++ DFPlugin.encode entry ++ "/df_complex-free.rrd"))

/-- One token of a transform expression of an `rrd_types` entry.  In the
source a transform is a comma-separated RPN string such as
`%name%,UN,0,%name%,IF,%name_0%,+`; `get_defs` rewrites it with string
replacement driven by the literal `%name%` and by `RE_NAME`, the regex
matching `%name_` then digits then `%`.  Those patterns only ever match
whole comma-separated tokens, and the substituted series names contain no
`%`, so the textual substitution of the source coincides with per-token
substitution; the embedding therefore keeps each transform as its token
list, with the two reference forms parsed into constructors. -/
inductive TTok where
  | lit (s : String)
  | nameSelf
  | nameRef (j : Nat)
deriving DecidableEq

/-- One whitespace-separated argument of `rrd_data_extra`, kept as the
concatenation of literal pieces and `%name_i%` references (the references
appear inside larger argument strings there). -/
inductive XTok where
  | lit (s : String)
  | ref (j : Nat)
deriving DecidableEq

/-- An `rrd_types` entry `(_type, dsname, transform)`. -/
structure RrdType where
  typeName : String
  dsname : String
  transform : Option (List TTok)
deriving DecidableEq

/-- The series name: the archive type and dsname joined by an underscore
(reporting.py:172). -/
def seriesName (t : RrdType) : String := t.typeName ++ "_" ++ t.dsname

/-- The per-plugin data `RRDBase.get_defs` reads from `self`. -/
structure PluginCfg where
  plugin : String
  identifierPlugin : Bool
  encode : String → String

/-- Python `path.replace(':', r'\:')` (reporting.py:171). -/
def escapeColons : List Char → List Char
  | [] => []
  | c :: cs => if c = ':' then '\\' :: ':' :: escapeColons cs else c :: escapeColons cs

def escapeColonsStr (s : String) : String := ⟨escapeColons s.data⟩

/-- Python truthiness of the optional identifier string. -/
def optTruthy : Option String → Bool
  | none => false
  | some s => s != ""

/-- The first loop of `RRDBase.get_defs` (reporting.py:164-179): one
`DEF:` line per `rrd_types` entry, unconditionally.  The loop reassigns
`identifier = self.encode(identifier)`, so the encoded value is threaded
through the recursion. -/
def defLinesAux (cfg : PluginCfg) : Option String → List RrdType → List String
  | _, [] => []
  | ident, t :: ts =>
    let pr : String × Option String :=
      match ident with
      | some s =>
        if cfg.identifierPlugin && s != "" then
          (cfg.plugin ++ "-" ++ cfg.encode s, some (cfg.encode s))
        else (cfg.plugin, some s)
      | none => (cfg.plugin, none)
    let path := escapeColonsStr (rrdBasePath ++ "/" ++ pr.1 ++ "/" ++ t.typeName ++ ".rrd")
    ("DEF:" ++ seriesName t ++ "=" ++ path ++ ":" ++ t.dsname ++ ":AVERAGE")
      :: defLinesAux cfg pr.2 ts

/-- Substitution of one transform token (reporting.py:184-187): `%name%`
becomes the name of the series being defined, `%name_j%` becomes
the name of the series at index `j` of the defs table; an index `j`
outside the table raises `KeyError`. -/
def substTok (names : List String) (self : String) : TTok → Except String String
  | .lit s => .ok s
  | .nameSelf => .ok self
  | .nameRef j =>
    match names.get? j with
    | some nm => .ok nm
    | none => .error "KeyError"

/-- Total version of `substTok`, meaningful when every reference is in
range. -/
def substTokTotal (names : List String) (self : String) : TTok → String
  | .lit s => s
  | .nameSelf => self
  | .nameRef j =>
    match names.get? j with
    | some nm => nm
    | none => ""

/-- Resolve every token of a transform, left to right. -/
def resolveTransform (names : List String) (self : String) :
    List TTok → Except String (List String)
  | [] => .ok []
  | t :: ts => do
    let s ← substTok names self t
    let rest ← resolveTransform names self ts
    return s :: rest

/-- Python string join on a separator (the transform tokens are
re-assembled into the comma-separated string `rrdtool` receives). -/
def joinSep (sep : String) : List String → String
  | [] => ""
  | [x] => x
  | x :: y :: xs => x ++ sep ++ joinSep sep (y :: xs)

/-- One iteration of the second loop of `RRDBase.get_defs`
(reporting.py:181-193): a `CDEF`/`XPORT` pair when the series has a
transform, a bare `XPORT` otherwise. -/
def cdefFor (names : List String) (t : RrdType) : Except String (List String) :=
  match t.transform with
  | some toks => do
    let parts ← resolveTransform names (seriesName t) toks
    pure ["CDEF:c" ++ seriesName t ++ "=" ++ joinSep "," parts,
          "XPORT:c" ++ seriesName t ++ ":" ++ seriesName t]
  | none => pure ["XPORT:" ++ seriesName t ++ ":" ++ seriesName t]

/-- The second loop of `RRDBase.get_defs`, over every series in order.
`names` is the full name table built by the first loop, so a transform may
reference any series of the call, including later ones. -/
def cdefArgs (names : List String) : List RrdType → Except String (List String)
  | [] => .ok []
  | t :: ts => do
    let here ← cdefFor names t
    let rest ← cdefArgs names ts
    return here ++ rest

/-- Resolution of one `%name_i%` reference of `rrd_data_extra`
(reporting.py:195-203): the referenced series name, with a `c` prefix when
that series has a transform; out-of-range indices raise `KeyError`. -/
def resolveExtraTok (types : List RrdType) : XTok → Except String String
  | .lit s => .ok s
  | .ref j =>
    match types.get? j with
    | some t => .ok (if t.transform.isSome then "c" ++ seriesName t else seriesName t)
    | none => .error "KeyError"

/-- One whitespace-separated argument of the resolved `rrd_data_extra`. -/
def resolveExtraArg (types : List RrdType) : List XTok → Except String String
  | [] => .ok ""
  | x :: xs => do
    let s ← resolveExtraTok types x
    let rest ← resolveExtraArg types xs
    return s ++ rest

/-- All `rrd_data_extra` arguments. -/
def resolveExtra (types : List RrdType) : List (List XTok) → Except String (List String)
  | [] => .ok []
  | a :: as => do
    let s ← resolveExtraArg types a
    let rest ← resolveExtra types as
    return s :: rest

/-- `RRDBase.get_defs` (reporting.py:156-205).  `types` is
`self.get_rrd_types(identifier)` and `extra` is the tokenised
`self.rrd_data_extra`.  An empty `rrd_types` raises `RuntimeError`;
nothing here consults the filesystem — every archive type contributes its
`DEF:` line whether or not its `.rrd` file exists. -/
def get_defs (cfg : PluginCfg) (identifier : Option String) (types : List RrdType)
    (extra : List (List XTok)) : Except String (List String) :=
  if types = [] then .error "rrd_types not defined"
  else do
    let cds ← cdefArgs (types.map seriesName) types
    let ex ← resolveExtra types extra
    return defLinesAux cfg identifier types ++ cds ++ ex

/-- Column-wise minimum of the parsed `rrdtool xport` rows, as
`pandas.DataFrame(rows).min()` computes it: nulls are skipped, an all-null
column gives `NaN` (here `none`). -/
def optColMin (col : List (Option ℚ)) : Option ℚ :=
  match col.filterMap id with
  | [] => none
  | x :: xs => some (xs.foldl min x)

/-- Column-wise maximum, as `DataFrame.max()`. -/
def optColMax (col : List (Option ℚ)) : Option ℚ :=
  match col.filterMap id with
  | [] => none
  | x :: xs => some (xs.foldl max x)

/-- Column-wise mean, as `DataFrame.mean()`: sum of the non-null entries
over their count. -/
def optColMean (col : List (Option ℚ)) : Option ℚ :=
  match col.filterMap id with
  | [] => none
  | x :: xs => some ((xs.foldl (· + ·) x) / (xs.length + 1))

/-- `list(getattr(df, agg)())` for `agg` one of `max`, `mean`, `min`
(reporting.py:234). -/
def statFor (agg : String) (rows : List (List (Option ℚ))) : List (Option ℚ) :=
  if agg = "max" then rows.transpose.map optColMax
  else if agg = "mean" then rows.transpose.map optColMean
  else rows.transpose.map optColMin

/-- Association-list lookup (a Python `dict` keyed by aggregation name). -/
def alookup {α β : Type} [DecidableEq α] (k : α) : List (α × β) → Option β
  | [] => none
  | p :: ps => if p.1 = k then some p.2 else alookup k ps

/-- Python `d[k] = v` on a dict kept as an ordered association list:
overwrite in place when the key exists, append otherwise. -/
def dictInsert {α β : Type} [DecidableEq α] (d : List (α × β)) (k : α) (v : β) :
    List (α × β) :=
  if (alookup k d).isSome then d.map (fun p => if p.1 = k then (k, v) else p)
  else d ++ [(k, v)]

/-- The aggregation loop of `RRDBase.export` (reporting.py:230-236): each
declared aggregation name among `max`, `mean`, `min` stores its column-wise
statistic; any other name raises `RuntimeError` on the spot. -/
def computeAggsAux (rows : List (List (Option ℚ))) :
    List String → List (String × List (Option ℚ)) →
    Except String (List (String × List (Option ℚ)))
  | [], acc => .ok acc
  | a :: as, acc =>
    if a = "max" ∨ a = "mean" ∨ a = "min" then
      computeAggsAux rows as (dictInsert acc a (statFor a rows))
    else .error ("Aggregation " ++ a ++ " is invalid.")

/-- The record `RRDBase.export` assembles from the parsed tool output
(reporting.py:222-228); `meta` fields are not modelled. -/
structure ExportRecord where
  name : String
  identifier : Option String
  data : List (List (Option ℚ))
  aggregations : List (String × List (Option ℚ))

/-- The result-assembly stage of `RRDBase.export` (reporting.py:220-238),
as a function of the already-parsed `rrdtool xport` rows (the subprocess
call itself is outside the embedding).  `aggs` is `self.aggregations`;
aggregation runs when that tuple is non-empty and `aggregate` is set. -/
def rrd_export (pluginName : String) (aggs : List String) (identifier : Option String)
    (rows : List (List (Option ℚ))) (aggregate : Bool) : Except String ExportRecord :=
  if aggs ≠ [] ∧ aggregate then do
    let a ← computeAggsAux rows aggs []
    return { name := pluginName, identifier := identifier, data := rows, aggregations := a }
  else
    return { name := pluginName, identifier := identifier, data := rows, aggregations := [] }

/-- Python `min` over the non-empty collection of arrival timestamps. -/
def listMinI : List Int → Int
  | [] => 0
  | x :: xs => xs.foldl min x

/-- Python `max` over the non-empty collection of arrival timestamps. -/
def listMaxI : List Int → Int
  | [] => 0
  | x :: xs => xs.foldl max x

/-- The export-window computation of `ReportingEventSource.run`
(reporting.py:1305-1308): `start = math.floor(min(timestamps) / 10) * 10 - 10`,
`end = math.ceil(max(timestamps) / 10) * 10 - 10`, and when the two coincide
the start moves back one further step.  `math.floor` of an integer divided by
10 is `Int.fdiv`, `math.ceil` is its negated mirror. -/
def exportWindow (timestamps : List Int) : Int × Int :=
  let start := (listMinI timestamps).fdiv 10 * 10 - 10
  let stop := -((-(listMaxI timestamps)).fdiv 10) * 10 - 10
  if start = stop then (start - 10, stop) else (start, stop)

/-- `queues.add(self.queue)` (reporting.py:1292-1293): the guarded map
`RRD_TYPE_QUEUES_EVENT` gains `q` in the channel set of key `k`
(`set.add` is idempotent). -/
def subAdd {K Q : Type} [DecidableEq K] [DecidableEq Q] (s : K → Finset Q) (k : K)
    (q : Q) : K → Finset Q :=
  Function.update s k (insert q (s k))

/-- The subscription loop of `ReportingEventSource.run`
(reporting.py:1288-1294): add the queue of the source to the channel set of
every derived key; the keys are also recorded (`queue_reverse`) for cleanup. -/
def subscribeAll {K Q : Type} [DecidableEq K] [DecidableEq Q] (s : K → Finset Q)
    (ks : List K) (q : Q) : K → Finset Q :=
  ks.foldl (fun st k => subAdd st k q) s

/-- `q.remove(self.queue)` (reporting.py:1329): Python `set.remove` deletes
the element, and raises `KeyError` when it is absent. -/
def removeChannel {K Q : Type} [DecidableEq K] [DecidableEq Q] (s : K → Finset Q)
    (k : K) (q : Q) : Except Unit (K → Finset Q) :=
  if q ∈ s k then .ok (Function.update s k ((s k).erase q)) else .error ()

/-- `ReportingEventSource.on_finish` (reporting.py:1324-1329): remove the
queue from every recorded channel set, in registration order. -/
def on_finish {K Q : Type} [DecidableEq K] [DecidableEq Q] (s : K → Finset Q)
    (regs : List K) (q : Q) : Except Unit (K → Finset Q) :=
  regs.foldlM (fun st k => removeChannel st k q) s

/-- How the `run` loop of an event source ended. -/
inductive ExitMode where
  | cancelled
  | failed
deriving DecidableEq

/-- Modelled from the spec: the `EventSource` base class that invokes
`on_finish` lives outside this repository slice; per the spec, cleanup is a
guaranteed action that runs whatever way the run loop exited (normal
cancellation or a failure propagated out of the query call).  The query loop
itself never touches the subscription map, so the lifecycle is: subscribe to
every key, then — for either exit mode — run `on_finish` over the recorded
keys. -/
def runLifecycle {K Q : Type} [DecidableEq K] [DecidableEq Q] (s0 : K → Finset Q)
    (ks : List K) (q : Q) (mode : ExitMode) : Except Unit (K → Finset Q) :=
  match mode with
  | .cancelled => on_finish (subscribeAll s0 ks q) ks q
  | .failed => on_finish (subscribeAll s0 ks q) ks q

/-- Whether an `Except` computation raised. -/
def isError {ε α : Type} : Except ε α → Bool
  | .ok _ => false
  | .error _ => true

/-- Python `bytes.split(sep)` with a one-byte separator: split at every
occurrence, keeping empty pieces. -/
def chSplit (sep : Char) : List Char → List (List Char)
  | [] => [[]]
  | c :: cs =>
    let r := chSplit sep cs
    if c = sep then [] :: r
    else
      match r with
      | [] => [[c]]
      | h :: t => (c :: h) :: t

/-- Python `int(bytes)` restricted to an optional sign followed by digits
(the timestamps on the wire are plain decimal integers). -/
def toIntCh : List Char → Option Int
  | [] => none
  | '-' :: ds =>
    if ds ≠ [] ∧ ds.all (fun c => c.isDigit) then some (-(digitsToNat ds : Int)) else none
  | ds =>
    if ds.all (fun c => c.isDigit) then some (digitsToNat ds : Int) else none

/-- The per-line parse of `GraphiteHandler.handle` (reporting.py:1186-1188):
the line splits on single spaces into exactly three fields, the timestamp
field must parse as an integer, and the metric name is the part of the path
after the first dot (so the path must contain a dot).  Any failure raises
out of `handle`. -/
def parseGraphiteLine (line : String) : Option (String × Int) :=
  match chSplit ' ' line.data with
  | [path, _value, ts] =>
    match toIntCh ts with
    | none => none
    | some t =>
      match path.dropWhile (fun c => c ≠ '.') with
      | [] => none
      | _ :: rest => some (⟨rest⟩, t)
  | _ => none

/-- A subscription key `(name, identifier)` as stored in
`RRD_TYPE_QUEUES_EVENT[name]`. -/
abbrev NameIdent := String × Option String

/-- Python `set.add` on a set kept as an ordered duplicate-free list. -/
def setAdd {β : Type} [DecidableEq β] (l : List β) (x : β) : List β :=
  if x ∈ l then l else l ++ [x]

/-- `nameident_timestamps[nameident].add(timestamp)` on the defaultdict of
sets. -/
def dictAddTs (d : List (NameIdent × List Int)) (ni : NameIdent) (t : Int) :
    List (NameIdent × List Int) :=
  match alookup ni d with
  | some old => dictInsert d ni (setAdd old t)
  | none => d ++ [(ni, [t])]

/-- The body of the batch loop of `GraphiteHandler.handle`
(reporting.py:1185-1194) for one complete line: parse it (a malformed line
raises, modelled as `.error`), look the metric name up in the router
(`RRD_TYPE_QUEUES_EVENT`, an assoc list from name to the dict of
`(nameident, queue set)` entries), fold the queue dict into
`nameident_queues` (`dict.update`) and record the timestamp per nameident. -/
def processLine (router : List (String × List (NameIdent × List Nat)))
    (acc : List (NameIdent × List Nat) × List (NameIdent × List Int)) (line : String) :
    Except Unit (List (NameIdent × List Nat) × List (NameIdent × List Int)) :=
  match parseGraphiteLine line with
  | none => .error ()
  | some (name, ts) =>
    match alookup name router with
    | none => .ok acc
    | some queues =>
      .ok (queues.foldl (fun a p => dictInsert a p.1 p.2) acc.1,
           (queues.map Prod.fst).foldl (fun a ni => dictAddTs a ni ts) acc.2)

/-- One batch iteration of `GraphiteHandler.handle`
(reporting.py:1183-1197): process every complete line, then deliver
`(nameident, timestamps)` to each accumulated queue.  An exception on any
line aborts the whole batch before anything is delivered. -/
def processBatch (router : List (String × List (NameIdent × List Nat)))
    (lines : List String) : Except Unit (List (Nat × NameIdent × List Int)) := do
  let acc ← lines.foldlM (processLine router) ([], [])
  return acc.1.flatMap (fun p => p.2.map (fun q => (q, p.1, (alookup p.1 acc.2).getD [])))

/-- The fields of `reporting_query` that `__rquery_to_start_end` reads;
optional fields are absent when not supplied, `page` defaults to 0 in the
schema. -/
structure RQuery where
  unit : Option String
  page : Int
  start : Option String
  endTime : Option String

/-- `unit[0].lower()` (reporting.py:1062) for the ASCII unit names. -/
def unitFirstLower (u : String) : String :=
  match u.data with
  | [] => ""
  | c :: _ => ⟨[if 'A' ≤ c && c ≤ 'Z' then Char.ofNat (c.toNat + 32) else c]⟩

/-- The relative-window arm of `__rquery_to_start_end`
(reporting.py:1061-1068): the start is `end-` then page + 1 then the unit
letter, and the end is `now` when the page is 0, else `now-` then the page
then the unit letter. -/
def relWindow (u : String) (page : Int) : String × String :=
  ("end-" ++ toString (page + 1) ++ unitFirstLower u,
   if page = 0 then "now" else "now-" ++ toString page ++ unitFirstLower u)

/-- `ReportingService.__rquery_to_start_end` (reporting.py:1043-1069).
Supplying `unit` together with either absolute bound raises
`ValidationErrors`; with no `unit` and no `start` the unit falls back to
`HOURLY`; with a `start`, the end defaults to `now`. -/
def rquery_to_start_end (q : RQuery) : Except Unit (String × String) :=
  match q.unit with
  | some u =>
    if q.start.isSome || q.endTime.isSome then .error ()
    else .ok (relWindow u q.page)
  | none =>
    match q.start with
    | none => .ok (relWindow "HOURLY" q.page)
    | some st => .ok (st, q.endTime.getD "now")

/-- The first `SwapPlugin.rrd_types` entry (reporting.py:444-447):
transform `%name%,UN,0,%name%,IF`. -/
def swapUsedT : RrdType :=
  ⟨"swap-used", "value", some [.nameSelf, .lit "UN", .lit "0", .nameSelf, .lit "IF"]⟩

/-- The second `SwapPlugin.rrd_types` entry: transform
`%name%,UN,0,%name%,IF,%name_0%,+`. -/
def swapFreeT : RrdType :=
  ⟨"swap-free", "value",
   some [.nameSelf, .lit "UN", .lit "0", .nameSelf, .lit "IF", .nameRef 0, .lit "+"]⟩

/-- `SwapPlugin.rrd_types`. -/
def swapTypes : List RrdType := [swapUsedT, swapFreeT]

/-- The `self` data of `SwapPlugin` (plugin name `swap`, default
`identifier_plugin = True`, default `encode`). -/
def swapCfg : PluginCfg := ⟨"swap", true, id⟩

/-- The argument list `SwapPlugin.get_defs(None)` compiles. -/
def swapArgs : List String :=
  ["DEF:swap-used_value=/var/db/collectd/rrd/localhost/swap/swap-used.rrd:value:AVERAGE",
   "DEF:swap-free_value=/var/db/collectd/rrd/localhost/swap/swap-free.rrd:value:AVERAGE",
   "CDEF:cswap-used_value=swap-used_value,UN,0,swap-used_value,IF",
   "XPORT:cswap-used_value:swap-used_value",
   "CDEF:cswap-free_value=swap-free_value,UN,0,swap-free_value,IF,swap-used_value,+",
   "XPORT:cswap-free_value:swap-free_value"]

/-- `DFPlugin.rrd_types` (reporting.py:453-456). -/
def dfTypes : List RrdType :=
  [⟨"df_complex-free", "value", none⟩, ⟨"df_complex-used", "value", none⟩]

/-- The `self` data of `DFPlugin`. -/
def dfCfg : PluginCfg := ⟨"df", true, DFPlugin.encode⟩

/-- `DFPlugin.rrd_data_extra` (reporting.py:457-460), tokenised. -/
def dfExtra : List (List XTok) :=
  [[.lit "CDEF:both=", .ref 0, .lit ",", .ref 1, .lit ",+"],
   [.lit "XPORT:both:both"]]

/-- A filesystem in which only the `df_complex-free` archive of the
`/mnt/tank` instance exists; the `df_complex-used` file is missing. -/
def c1FsPresent : String → Bool := fun p =>
  p == "/var/db/collectd/rrd/localhost/df-mnt-tank/df_complex-free.rrd"

theorem charsLeB_refl (a : List Char) : charsLeB a a = true := by
  induction a with
  | nil => rfl
  | cons x xs ih => simp [charsLeB, ih]

theorem charsLeB_total (a : List Char) : ∀ b, charsLeB a b = true ∨ charsLeB b a = true := by
  induction a with
  | nil => intro b; left; cases b <;> rfl
  | cons x xs ih =>
    intro b
    cases b with
    | nil => right; rfl
    | cons y ys =>
      by_cases hxy : x = y
      · subst hxy
        rcases ih ys with h | h
        · left; simpa [charsLeB] using h
        · right; simpa [charsLeB] using h
      · rcases lt_trichotomy x y with h | h | h
        · left; simp [charsLeB, hxy, h]
        · exact absurd h hxy
        · right; simp [charsLeB, Ne.symm hxy, h]

theorem charsLeB_trans (a : List Char) :
    ∀ b c, charsLeB a b = true → charsLeB b c = true → charsLeB a c = true := by
  induction a with
  | nil => intro b c _ _; cases c <;> simp [charsLeB]
  | cons x xs ih =>
    intro b c hab hbc
    cases b with
    | nil => simp [charsLeB] at hab
    | cons y ys =>
      cases c with
      | nil => simp [charsLeB] at hbc
      | cons z zs =>
        by_cases hxy : x = y <;> by_cases hyz : y = z
        · subst hxy; subst hyz
          simp only [charsLeB, if_pos rfl] at hab hbc ⊢
          exact ih ys zs hab hbc
        · subst hxy
          simpa [charsLeB, hyz] using hbc
        · subst hyz
          simpa [charsLeB, hxy] using hab
        · simp only [charsLeB, if_neg hxy, decide_eq_true_eq] at hab
          simp only [charsLeB, if_neg hyz, decide_eq_true_eq] at hbc
          have hxz : x < z := lt_trans hab hbc
          simp [charsLeB, ne_of_lt hxz, hxz]

theorem charsLeB_antisymm (a : List Char) :
    ∀ b, charsLeB a b = true → charsLeB b a = true → a = b := by
  induction a with
  | nil => intro b _ hba; cases b with
    | nil => rfl
    | cons y ys => simp [charsLeB] at hba
  | cons x xs ih =>
    intro b hab hba
    cases b with
    | nil => simp [charsLeB] at hab
    | cons y ys =>
      by_cases hxy : x = y
      · subst hxy
        simp only [charsLeB, if_pos rfl] at hab hba
        exact congrArg (x :: ·) (ih ys hab hba)
      · simp only [charsLeB, if_neg hxy, decide_eq_true_eq] at hab
        simp only [charsLeB, if_neg (Ne.symm hxy), decide_eq_true_eq] at hba
        exact absurd (lt_trans hab hba) (lt_irrefl x)

theorem optNatLeB_total (m n : Option Nat) : optNatLeB m n = true ∨ optNatLeB n m = true := by
  cases m <;> cases n <;> simp [optNatLeB] <;> omega

theorem optNatLeB_trans {m n k : Option Nat} (h1 : optNatLeB m n = true)
    (h2 : optNatLeB n k = true) : optNatLeB m k = true := by
  cases m <;> cases n <;> cases k <;> simp_all [optNatLeB] <;> omega

theorem keyLeB_total (x y : List Char × Option Nat) :
    keyLeB x y = true ∨ keyLeB y x = true := by
  by_cases h : x.1 = y.1
  · simp only [keyLeB, if_pos h, if_pos h.symm]
    exact optNatLeB_total x.2 y.2
  · simp only [keyLeB, if_neg h, if_neg (Ne.symm h)]
    exact charsLeB_total x.1 y.1

theorem keyLeB_trans {x y z : List Char × Option Nat} (h1 : keyLeB x y = true)
    (h2 : keyLeB y z = true) : keyLeB x z = true := by
  by_cases hxy : x.1 = y.1 <;> by_cases hyz : y.1 = z.1
  · have hxz : x.1 = z.1 := hxy.trans hyz
    simp only [keyLeB, if_pos hxy] at h1
    simp only [keyLeB, if_pos hyz] at h2
    simp only [keyLeB, if_pos hxz]
    exact optNatLeB_trans h1 h2
  · have hxz : x.1 ≠ z.1 := hxy ▸ hyz
    simp only [keyLeB, if_neg hyz] at h2
    simp only [keyLeB, if_neg hxz]
    rw [hxy]
    exact h2
  · have hxz : x.1 ≠ z.1 := fun h => hxy (h.trans hyz.symm)
    simp only [keyLeB, if_neg hxy] at h1
    simp only [keyLeB, if_neg hxz, hyz] at h1 ⊢
    exact h1
  · by_cases hxz : x.1 = z.1
    · simp only [keyLeB, if_neg hxy] at h1
      simp only [keyLeB, if_neg hyz] at h2
      rw [← hxz] at h2
      exact absurd (charsLeB_antisymm _ _ h1 h2) hxy
    · simp only [keyLeB, if_neg hxy] at h1
      simp only [keyLeB, if_neg hyz] at h2
      simp only [keyLeB, if_neg hxz]
      exact charsLeB_trans _ _ _ h1 h2

instance : IsTotal String disksLe :=
  ⟨fun a b => keyLeB_total (diskKey a) (diskKey b)⟩

instance : IsTrans String disksLe :=
  ⟨fun _ _ _ h1 h2 => keyLeB_trans h1 h2⟩

theorem takeWhile_append_all {f : Char → Bool} (l1 l2 : List Char)
    (h : ∀ x ∈ l1, f x = true) :
    (l1 ++ l2).takeWhile f = l1 ++ l2.takeWhile f := by
  induction l1 with
  | nil => simp
  | cons x xs ih =>
    have hx : f x = true := h x (List.mem_cons_self x xs)
    simp only [List.cons_append, List.takeWhile_cons, hx, if_pos]
    simp only [List.cons.injEq, true_and]
    exact ih (fun y hy => h y (List.mem_cons_of_mem x hy))

theorem diskKey_trailing_number (p0 : List Char) (c : Char) (ds : List Char)
    (hc : c.isDigit = false) (hne : ds ≠ []) (hds : ∀ d ∈ ds, d.isDigit = true) :
    diskKey ⟨(p0 ++ [c]) ++ ds⟩ = (p0 ++ [c], some (digitsToNat ds)) := by
  have hrev : ((p0 ++ [c]) ++ ds).reverse = ds.reverse ++ (c :: p0.reverse) := by
    simp
  have ht : trailingDigits ((p0 ++ [c]) ++ ds) = ds.length := by
    unfold trailingDigits
    rw [hrev, takeWhile_append_all _ _ (fun x hx => hds x (List.mem_reverse.mp hx))]
    simp [List.takeWhile_cons, hc]
  have hlen : ((p0 ++ [c]) ++ ds).length = p0.length + 1 + ds.length := by
    simp only [List.length_append, List.length_cons, List.length_nil]
    try omega
  have hne0 : ds.length ≠ 0 := fun h => hne (List.length_eq_zero.mp h)
  unfold diskKey
  simp only [ht, hlen]
  rw [if_neg (by omega)]
  rw [if_neg (by omega)]
  have hp : p0.length + 1 + ds.length - ds.length = (p0 ++ [c]).length := by
    simp only [List.length_append, List.length_cons, List.length_nil]
    try omega
  rw [hp, List.take_left, List.drop_left]

theorem diskKey_no_trailing_number (s : String)
    (h : s.data.getLast?.all (fun c => !c.isDigit) = true) :
    diskKey s = (s.data, none) := by
  have ht : trailingDigits s.data = 0 := by
    unfold trailingDigits
    cases hr : s.data.reverse with
    | nil => simp [hr]
    | cons c rest =>
      have hc : s.data.getLast? = some c := by
        rw [← List.head?_reverse, hr]; rfl
      rw [hc] at h
      simp only [Option.all_some, Bool.not_eq_true'] at h
      simp [hr, List.takeWhile_cons, h]
  unfold diskKey
  simp [ht]

/-- Claim C3: sorting identifiers with the disk sort key (`_sort_disks`)
orders entries primarily by the prefix before the trailing digit run and
secondarily by that digit run read as an integer; an entry with no trailing
digits is keyed by its whole text; `disk2` sorts strictly before `disk10`,
and `["disk10", "disk2", "disk1"]` sorts to `["disk1", "disk2", "disk10"]`. -/
theorem c3_disk_sort_order :
    (∀ l : List String, List.Sorted disksLe (sort_disks l))
    ∧ (∀ l : List String, (sort_disks l).Perm l)
    ∧ (∀ (p0 : List Char) (c : Char) (ds : List Char),
        c.isDigit = false → ds ≠ [] → (∀ d ∈ ds, d.isDigit = true) →
        diskKey ⟨(p0 ++ [c]) ++ ds⟩ = (p0 ++ [c], some (digitsToNat ds)))
    ∧ (∀ s : String, s.data.getLast?.all (fun c => !c.isDigit) = true →
        diskKey s = (s.data, none))
    ∧ (keyLeB (diskKey "disk2") (diskKey "disk10") = true
        ∧ keyLeB (diskKey "disk10") (diskKey "disk2") = false)
    ∧ sort_disks ["disk10", "disk2", "disk1"] = ["disk1", "disk2", "disk10"] :=
  ⟨fun l => List.sorted_insertionSort disksLe l,
   fun l => List.perm_insertionSort disksLe l,
   diskKey_trailing_number,
   diskKey_no_trailing_number,
   by constructor <;> decide,
   by decide⟩

/-- Closed instance of the hypotheses of `c3_disk_sort_order`. -/
theorem c3_disk_sort_order_witness :
    diskKey ⟨(['d', 'i', 's'] ++ ['k']) ++ ['1', '0']⟩ =
      (['d', 'i', 's'] ++ ['k'], some (digitsToNat ['1', '0']))
    ∧ diskKey "disk" = ("disk".data, none)
    ∧ digitsToNat ['1', '0'] = 10 :=
  ⟨c3_disk_sort_order.2.2.1 ['d', 'i', 's'] 'k' ['1', '0'] (by decide) (by decide) (by decide),
   c3_disk_sort_order.2.2.2.1 "disk" (by decide),
   by decide⟩

/-- Claim C4 (amended): the disk-temperature, interface, disk I/O and
geom-stat discovery functions do sort their identifiers with the disk key,
whatever order the filesystem scan yields; the disk-space (`df`) discovery
returns its identifiers in scan order, unsorted (and the SCSI-target plugin
sorts with the distinct `_sort_ports` key, not modelled here). -/
theorem c4_identifier_sorting :
    (∀ scan fsExists, List.Sorted disksLe (DiskTempPlugin.get_identifiers scan fsExists))
    ∧ (∀ scan ifaces fsExists,
        List.Sorted disksLe (InterfacePlugin.get_identifiers scan ifaces fsExists))
    ∧ (∀ scan devExists fsExists,
        List.Sorted disksLe (DiskPlugin.get_identifiers scan devExists fsExists))
    ∧ (∀ scan devExists, List.Sorted disksLe (GeomStatBase.get_identifiers scan devExists))
    ∧ (∀ entries fsExists, (DFPlugin.get_identifiers entries fsExists).Sublist entries) :=
  ⟨fun _ _ => List.sorted_insertionSort disksLe _,
   fun _ _ _ => List.sorted_insertionSort disksLe _,
   fun _ _ _ => List.sorted_insertionSort disksLe _,
   fun _ _ => List.sorted_insertionSort disksLe _,
   fun _ _ => List.filter_sublist _⟩

/-- Claim C4 is false as stated: the disk-space discovery
(`DFPlugin.get_identifiers`) does not sort, so a scan that yields
`/mnt/tank10` before `/mnt/tank2` is returned in that order, which is not
the non-numeric-prefix/numeric-suffix order. -/
theorem c4_counterexample :
    ¬ List.Pairwise disksLe
        (DFPlugin.get_identifiers ["/mnt/tank10", "/mnt/tank2"] (fun _ => true)) := by
  decide

theorem foldl_min_le_foldl_max (xs : List Int) :
    ∀ a b : Int, a ≤ b → xs.foldl min a ≤ xs.foldl max b := by
  induction xs with
  | nil => intro a b h; exact h
  | cons x xs ih =>
    intro a b h
    simp only [List.foldl_cons]
    exact ih (min a x) (max b x) (le_trans (min_le_right a x) (le_max_right b x))

theorem listMinI_le_listMaxI (ts : List Int) (h : ts ≠ []) : listMinI ts ≤ listMaxI ts := by
  cases ts with
  | nil => exact absurd rfl h
  | cons x xs => exact foldl_min_le_foldl_max xs x x le_rfl

/-- Claim C5: for a non-empty timestamp set, the event-source window is
`start = floor(min/10)*10 - 10`, `end = ceil(max/10)*10 - 10`, with the start
pushed back one further step when the two coincide; consequently the queried
start is always strictly below the queried end. -/
theorem c5_event_window (ts : List Int) (h : ts ≠ []) :
    ((exportWindow ts).1 < (exportWindow ts).2)
    ∧ ((exportWindow ts).2 = -((-(listMaxI ts)).fdiv 10) * 10 - 10)
    ∧ ((listMinI ts).fdiv 10 * 10 - 10 = (exportWindow ts).2 →
        (exportWindow ts).1 = (listMinI ts).fdiv 10 * 10 - 20)
    ∧ ((listMinI ts).fdiv 10 * 10 - 10 ≠ (exportWindow ts).2 →
        (exportWindow ts).1 = (listMinI ts).fdiv 10 * 10 - 10) := by
  have hmm : listMinI ts ≤ listMaxI ts := listMinI_le_listMaxI ts h
  have hfd : ∀ a : Int, a.fdiv 10 = a / 10 := fun a => Int.fdiv_eq_ediv a (by norm_num)
  unfold exportWindow
  simp only [hfd]
  by_cases hab : listMinI ts / 10 * 10 - 10 = -(-listMaxI ts / 10) * 10 - 10
  · simp only [if_pos hab]
    refine ⟨?_, ?_, fun _ => ?_, fun hne => absurd hab hne⟩
    · show listMinI ts / 10 * 10 - 10 - 10 < -(-listMaxI ts / 10) * 10 - 10
      omega
    · trivial
    · show listMinI ts / 10 * 10 - 10 - 10 = listMinI ts / 10 * 10 - 20
      omega
  · simp only [if_neg hab]
    refine ⟨?_, ?_, fun heq => absurd heq hab, fun _ => ?_⟩
    · show listMinI ts / 10 * 10 - 10 < -(-listMaxI ts / 10) * 10 - 10
      omega
    · trivial
    · trivial

/-- Closed instance of `c5_event_window` at the timestamps 995 and 1003. -/
theorem c5_event_window_witness :
    (((exportWindow [995, 1003]).1 < (exportWindow [995, 1003]).2)
      ∧ ((exportWindow [995, 1003]).2 = -((-(listMaxI [995, 1003])).fdiv 10) * 10 - 10)
      ∧ ((listMinI [995, 1003]).fdiv 10 * 10 - 10 = (exportWindow [995, 1003]).2 →
          (exportWindow [995, 1003]).1 = (listMinI [995, 1003]).fdiv 10 * 10 - 20)
      ∧ ((listMinI [995, 1003]).fdiv 10 * 10 - 10 ≠ (exportWindow [995, 1003]).2 →
          (exportWindow [995, 1003]).1 = (listMinI [995, 1003]).fdiv 10 * 10 - 10))
    ∧ exportWindow [995, 1003] = (980, 1000) :=
  ⟨c5_event_window [995, 1003] (by decide), by decide⟩

theorem removeChannel_not_mem {K Q : Type} [DecidableEq K] [DecidableEq Q]
    {s s2 : K → Finset Q} {k : K} {q : Q} (hr : removeChannel s k q = .ok s2)
    {x : K} (hx : q ∉ s x) : q ∉ s2 x := by
  unfold removeChannel at hr
  split at hr
  · cases hr
    by_cases hkx : x = k
    · subst hkx
      simp [Function.update_same]
    · simp [Function.update_noteq hkx, hx]
  · cases hr

theorem on_finish_not_mem {K Q : Type} [DecidableEq K] [DecidableEq Q] :
    ∀ (regs : List K) (s s2 : K → Finset Q) (q : Q),
      on_finish s regs q = .ok s2 → ∀ x, q ∉ s x → q ∉ s2 x := by
  intro regs
  induction regs with
  | nil =>
    intro s s2 q hr x hx
    simp only [on_finish, List.foldlM_nil] at hr
    cases hr
    exact hx
  | cons k ks ih =>
    intro s s2 q hr x hx
    simp only [on_finish, List.foldlM_cons] at hr
    cases hrc : removeChannel s k q with
    | error e => rw [hrc] at hr; exact Except.noConfusion hr
    | ok s1 =>
      rw [hrc] at hr
      exact ih s1 s2 q hr x (removeChannel_not_mem hrc hx)

theorem on_finish_ok_clean {K Q : Type} [DecidableEq K] [DecidableEq Q] :
    ∀ (regs : List K) (s s2 : K → Finset Q) (q : Q),
      on_finish s regs q = .ok s2 → ∀ k ∈ regs, q ∉ s2 k := by
  intro regs
  induction regs with
  | nil => intro s s2 q _ k hk; exact absurd hk (List.not_mem_nil k)
  | cons k0 ks ih =>
    intro s s2 q hr k hk
    simp only [on_finish, List.foldlM_cons] at hr
    cases hrc : removeChannel s k0 q with
    | error e => rw [hrc] at hr; exact Except.noConfusion hr
    | ok s1 =>
      rw [hrc] at hr
      rcases List.mem_cons.mp hk with hk0 | hks
      · subst hk0
        have h1 : q ∉ s1 k := by
          unfold removeChannel at hrc
          split at hrc
          · cases hrc; simp [Function.update_same]
          · cases hrc
        exact on_finish_not_mem ks s1 s2 q hr k h1
      · exact ih s1 s2 q hr k hks

/-- Claim C6: once the cleanup of a cancelled event source has completed,
the channel set kept by the router for every key the source registered no
longer contains the queue of that source, whichever way the run loop
exited. -/
theorem c6_cancellation_cleanup {K Q : Type} [DecidableEq K] [DecidableEq Q]
    (s0 : K → Finset Q) (ks : List K) (q : Q) (mode : ExitMode) :
    match runLifecycle s0 ks q mode with
    | .ok s2 => ∀ k ∈ ks, q ∉ s2 k
    | .error _ => True := by
  cases mode with
  | cancelled =>
    cases hr : on_finish (subscribeAll s0 ks q) ks q with
    | ok s2 =>
      simp only [runLifecycle, hr]
      exact on_finish_ok_clean ks (subscribeAll s0 ks q) s2 q hr
    | error e => simp only [runLifecycle, hr]
  | failed =>
    cases hr : on_finish (subscribeAll s0 ks q) ks q with
    | ok s2 =>
      simp only [runLifecycle, hr]
      exact on_finish_ok_clean ks (subscribeAll s0 ks q) s2 q hr
    | error e => simp only [runLifecycle, hr]

theorem removeChannel_error_of_not_mem {K Q : Type} [DecidableEq K] [DecidableEq Q]
    {s : K → Finset Q} {k : K} {q : Q} (h : q ∉ s k) :
    removeChannel s k q = .error () := by
  unfold removeChannel
  exact if_neg h

/-- Claim C7 (amended): `on_finish` removes with Python `set.remove`, which
raises `KeyError` on an absent element — so once the cleanup of a source
has completed, running the same cleanup again over at least one registered
key raises instead of being a no-op. -/
theorem c7_double_cleanup_raises {K Q : Type} [DecidableEq K] [DecidableEq Q]
    (s0 : K → Finset Q) (ks : List K) (q : Q) (mode : ExitMode) (hne : ks ≠ []) :
    match runLifecycle s0 ks q mode with
    | .ok s1 => isError (on_finish s1 ks q) = true
    | .error _ => True := by
  have main : ∀ s1, on_finish (subscribeAll s0 ks q) ks q = .ok s1 →
      isError (on_finish s1 ks q) = true := by
    intro s1 hr
    cases ks with
    | nil => exact absurd rfl hne
    | cons k0 ks2 =>
      have h0 : q ∉ s1 k0 :=
        on_finish_ok_clean _ _ _ _ hr k0 (List.mem_cons_self k0 ks2)
      show isError (List.foldlM (fun st k => removeChannel st k q) s1 (k0 :: ks2)) = true
      rw [List.foldlM_cons, removeChannel_error_of_not_mem h0]
      rfl
  cases mode with
  | cancelled =>
    cases hr : on_finish (subscribeAll s0 ks q) ks q with
    | ok s1 => simp only [runLifecycle, hr]; exact main s1 hr
    | error e => simp only [runLifecycle, hr]
  | failed =>
    cases hr : on_finish (subscribeAll s0 ks q) ks q with
    | ok s1 => simp only [runLifecycle, hr]; exact main s1 hr
    | error e => simp only [runLifecycle, hr]

/-- Closed instance of `c7_double_cleanup_raises`. -/
theorem c7_double_cleanup_raises_witness :
    match runLifecycle (fun _ : ℕ => (∅ : Finset ℕ)) [0] 5 .cancelled with
    | .ok s1 => isError (on_finish s1 [0] 5) = true
    | .error _ => True :=
  c7_double_cleanup_raises (fun _ => ∅) [0] 5 .cancelled (by decide)

/-- Claim C7 is false as stated: unsubscribing a channel that is absent from
the channel set of a registered key (here: a second cleanup over key 0
after the set was already emptied) raises `KeyError` rather than being a
no-op. -/
theorem c7_counterexample :
    isError (on_finish (fun _ : ℕ => (∅ : Finset ℕ)) [0] 5) = true := by
  rfl

theorem foldlM_processLine_error (router : List (String × List (NameIdent × List Nat))) :
    ∀ (lines : List String) acc,
      (∃ l ∈ lines, parseGraphiteLine l = none) →
      isError (lines.foldlM (processLine router) acc) = true := by
  intro lines
  induction lines with
  | nil =>
    intro acc h
    rcases h with ⟨l, hl, _⟩
    exact absurd hl (List.not_mem_nil l)
  | cons x xs ih =>
    intro acc h
    rw [List.foldlM_cons]
    cases hp : parseGraphiteLine x with
    | none =>
      have : processLine router acc x = .error () := by
        unfold processLine
        rw [hp]
      rw [this]
      rfl
    | some pr =>
      have hok : ∃ acc2, processLine router acc x = .ok acc2 := by
        obtain ⟨name, ts⟩ := pr
        cases h2 : alookup name router with
        | none => exact ⟨acc, by simp only [processLine, hp, h2]⟩
        | some queues => exact ⟨_, by simp only [processLine, hp, h2]; rfl⟩
      rcases hok with ⟨acc2, hacc2⟩
      rw [hacc2]
      have hxs : ∃ l ∈ xs, parseGraphiteLine l = none := by
        rcases h with ⟨l, hl, hnone⟩
        rcases List.mem_cons.mp hl with hlx | hlxs
        · subst hlx; rw [hp] at hnone; exact absurd hnone (by simp)
        · exact ⟨l, hlxs, hnone⟩
      exact ih acc2 hxs

/-- Claim C8 (amended): the batch loop of `GraphiteHandler.handle` has no
per-line exception handling, so one malformed line (wrong field count,
non-integer timestamp, or a dotless path) raises out of the loop: nothing in
the batch is delivered — not even the well-formed lines parsed before it —
and the error propagates out of `handle`, aborting the connection. -/
theorem c8_malformed_line_aborts_batch
    (router : List (String × List (NameIdent × List Nat))) (lines : List String)
    (l : String) (hmem : l ∈ lines) (hbad : parseGraphiteLine l = none) :
    isError (processBatch router lines) = true := by
  have h := foldlM_processLine_error router lines ([], []) ⟨l, hmem, hbad⟩
  unfold processBatch
  cases hf : lines.foldlM (processLine router) ([], []) with
  | ok acc => rw [hf] at h; exact absurd h (by simp [isError])
  | error e => rfl

/-- Closed instance of `c8_malformed_line_aborts_batch`: the second line of
the batch is malformed, so even the first, well-formed line is never
published. -/
theorem c8_malformed_line_aborts_batch_witness :
    isError (processBatch [("cpu-0.cpu-user.value", [(("cpu", some "0"), [1])])]
      ["localhost.cpu-0.cpu-user.value 42 1000", "bogus"]) = true :=
  c8_malformed_line_aborts_batch _ _ "bogus" (by decide) (by decide)

/-- Claim C8 is false as stated: with one well-formed line followed by one
malformed line, the handler does not drop the malformed line and publish the
rest — the whole batch errors and nothing is delivered. -/
theorem c8_counterexample :
    processBatch [("cpu-0.cpu-user.value", [(("cpu", some "0"), [1])])]
      ["localhost.cpu-0.cpu-user.value 42 1000", "bogus"] = .error () := by
  rfl

theorem dictInsert_fresh {α β : Type} [DecidableEq α] {d : List (α × β)} {k : α}
    (v : β) (h : alookup k d = none) : dictInsert d k v = d ++ [(k, v)] := by
  unfold dictInsert
  rw [h]
  rfl

theorem alookup_append_single {α β : Type} [DecidableEq α] {d : List (α × β)} {k b : α}
    {v : β} (h : alookup b d = none) (hne : b ≠ k) :
    alookup b (d ++ [(k, v)]) = none := by
  induction d with
  | nil => simp [alookup, Ne.symm hne]
  | cons p ps ih =>
    unfold alookup at h ⊢
    split at h
    · exact absurd h (by simp)
    · simp only [List.cons_append]
      rw [if_neg (by assumption)]
      exact ih h

theorem computeAggsAux_ok (rows : List (List (Option ℚ))) :
    ∀ (aggs : List String) (acc : List (String × List (Option ℚ))),
      (∀ a ∈ aggs, a = "max" ∨ a = "mean" ∨ a = "min") →
      aggs.Nodup →
      (∀ a ∈ aggs, alookup a acc = none) →
      computeAggsAux rows aggs acc =
        .ok (acc ++ aggs.map (fun a => (a, statFor a rows))) := by
  intro aggs
  induction aggs with
  | nil => intro acc _ _ _; simp [computeAggsAux]
  | cons a as ih =>
    intro acc hvalid hnodup hfresh
    have ha : a = "max" ∨ a = "mean" ∨ a = "min" := hvalid a (List.mem_cons_self a as)
    unfold computeAggsAux
    rw [if_pos ha]
    rw [dictInsert_fresh _ (hfresh a (List.mem_cons_self a as))]
    rw [ih (acc ++ [(a, statFor a rows)])
      (fun b hb => hvalid b (List.mem_cons_of_mem a hb))
      (List.Nodup.of_cons hnodup)
      (fun b hb => alookup_append_single (hfresh b (List.mem_cons_of_mem a hb))
        (fun hba => (List.nodup_cons.mp hnodup).1 (hba ▸ hb)))]
    simp

theorem computeAggsAux_invalid (rows : List (List (Option ℚ))) :
    ∀ (aggs : List String) (acc : List (String × List (Option ℚ))) (a : String),
      a ∈ aggs → ¬(a = "max" ∨ a = "mean" ∨ a = "min") →
      isError (computeAggsAux rows aggs acc) = true := by
  intro aggs
  induction aggs with
  | nil => intro acc a ha _; exact absurd ha (List.not_mem_nil a)
  | cons b bs ih =>
    intro acc a ha hbad
    unfold computeAggsAux
    by_cases hb : b = "max" ∨ b = "mean" ∨ b = "min"
    · rw [if_pos hb]
      rcases List.mem_cons.mp ha with hab | habs
      · exact absurd (hab ▸ hb) hbad
      · exact ih _ a habs hbad
    · rw [if_neg hb]
      rfl

/-- Claim C9: with `aggregate` set and a non-empty declared-aggregation
tuple, `export` stores one statistic sequence per declared name — `min`,
`mean` and `max` each yield their column-wise statistic — and a declared
name outside that set makes `export` raise instead of returning a record. -/
theorem c9_aggregation_validity :
    (∀ (pluginName : String) (aggs : List String) (identifier : Option String)
        (rows : List (List (Option ℚ))),
      aggs ≠ [] → (∀ a ∈ aggs, a = "max" ∨ a = "mean" ∨ a = "min") → aggs.Nodup →
      rrd_export pluginName aggs identifier rows true =
        .ok { name := pluginName, identifier := identifier, data := rows,
              aggregations := aggs.map (fun a => (a, statFor a rows)) })
    ∧ (∀ (pluginName : String) (aggs : List String) (identifier : Option String)
        (rows : List (List (Option ℚ))) (a : String),
      a ∈ aggs → ¬(a = "max" ∨ a = "mean" ∨ a = "min") →
      isError (rrd_export pluginName aggs identifier rows true) = true) := by
  constructor
  · intro pn aggs ident rows hne hvalid hnodup
    unfold rrd_export
    rw [if_pos ⟨hne, rfl⟩]
    rw [computeAggsAux_ok rows aggs [] hvalid hnodup (fun a _ => rfl)]
    simp
  · intro pn aggs ident rows a ha hbad
    have hne : aggs ≠ [] := fun h => (List.not_mem_nil a) (h ▸ ha)
    unfold rrd_export
    rw [if_pos ⟨hne, rfl⟩]
    have herr := computeAggsAux_invalid rows aggs [] a ha hbad
    cases hc : computeAggsAux rows aggs [] with
    | ok r => rw [hc] at herr; exact absurd herr (by simp [isError])
    | error e => rfl

/-- Closed instance of `c9_aggregation_validity`: the three valid names
produce their statistics, and the unsupported name `sum` raises. -/
theorem c9_aggregation_validity_witness :
    (rrd_export "memory" ["min", "mean", "max"] none [[some 1, none], [some 3, some 2]] true =
      .ok { name := "memory", identifier := none,
            data := [[some 1, none], [some 3, some 2]],
            aggregations := ["min", "mean", "max"].map
              (fun a => (a, statFor a [[some 1, none], [some 3, some 2]])) })
    ∧ isError (rrd_export "memory" ["sum"] none [] true) = true
    ∧ statFor "min" [[some 1, none], [some 3, some 2]] = [some 1, some 2]
    ∧ statFor "max" [[some 1, none], [some 3, some 2]] = [some 3, some 2] :=
  ⟨c9_aggregation_validity.1 "memory" ["min", "mean", "max"] none
      [[some 1, none], [some 3, some 2]] (by decide) (by decide) (by decide),
   c9_aggregation_validity.2 "memory" ["sum"] none [] "sum" (by decide) (by decide),
   by decide, by decide⟩

theorem defLinesAux_length (cfg : PluginCfg) :
    ∀ (ident : Option String) (types : List RrdType),
      (defLinesAux cfg ident types).length = types.length := by
  intro ident types
  induction types generalizing ident with
  | nil => rfl
  | cons t ts ih => simp [defLinesAux, ih]

theorem get_defs_ok_inv {cfg : PluginCfg} {ident : Option String} {types : List RrdType}
    {extra : List (List XTok)} {args : List String}
    (h : get_defs cfg ident types extra = .ok args) :
    types ≠ [] ∧ ∃ cds ex, cdefArgs (types.map seriesName) types = .ok cds
      ∧ resolveExtra types extra = .ok ex
      ∧ args = defLinesAux cfg ident types ++ cds ++ ex := by
  unfold get_defs at h
  by_cases ht : types = []
  · rw [if_pos ht] at h
    exact Except.noConfusion h
  · rw [if_neg ht] at h
    refine ⟨ht, ?_⟩
    cases hc : cdefArgs (types.map seriesName) types with
    | error e => rw [hc] at h; exact Except.noConfusion h
    | ok cds =>
      rw [hc] at h
      cases he : resolveExtra types extra with
      | error e => rw [he] at h; exact Except.noConfusion h
      | ok ex =>
        rw [he] at h
        injection h with h2
        exact ⟨cds, ex, rfl, rfl, h2.symm⟩

theorem substTok_ok {names : List String} {self : String} {t : TTok} {s : String}
    (h : substTok names self t = .ok s) : s = substTokTotal names self t := by
  cases t with
  | lit s0 => injection h with h2; exact h2.symm
  | nameSelf => injection h with h2; exact h2.symm
  | nameRef j =>
    simp only [substTok] at h
    cases hg : names.get? j with
    | none => rw [hg] at h; exact Except.noConfusion h
    | some nm =>
      rw [hg] at h
      injection h with h2
      simp only [substTokTotal]
      rw [hg]
      exact h2.symm

theorem resolveTransform_ok {names : List String} {self : String} :
    ∀ {toks : List TTok} {parts : List String},
      resolveTransform names self toks = .ok parts →
      parts = toks.map (substTokTotal names self) := by
  intro toks
  induction toks with
  | nil =>
    intro parts h
    injection h with h2
    exact h2.symm
  | cons t ts ih =>
    intro parts h
    unfold resolveTransform at h
    cases hs : substTok names self t with
    | error e => rw [hs] at h; exact Except.noConfusion h
    | ok s =>
      rw [hs] at h
      cases hr : resolveTransform names self ts with
      | error e => rw [hr] at h; exact Except.noConfusion h
      | ok rest =>
        rw [hr] at h
        injection h with h2
        rw [← h2, List.map_cons, substTok_ok hs, ih hr]

theorem resolveTransform_err {names : List String} (self : String) {j : Nat}
    (hj : names.length ≤ j) :
    ∀ {toks : List TTok}, TTok.nameRef j ∈ toks →
      isError (resolveTransform names self toks) = true := by
  intro toks
  induction toks with
  | nil => intro hmem; exact absurd hmem (List.not_mem_nil _)
  | cons t ts ih =>
    intro hmem
    unfold resolveTransform
    rcases List.mem_cons.mp hmem with htj | hts
    · subst htj
      have hs : substTok names self (.nameRef j) = .error "KeyError" := by
        simp only [substTok]
        rw [List.get?_eq_none.mpr hj]
      rw [hs]
      rfl
    · cases hs : substTok names self t with
      | error e => rfl
      | ok s =>
        have hih := ih hts
        cases hr : resolveTransform names self ts with
        | ok rest => rw [hr] at hih; exact absurd hih (by simp [isError])
        | error e => rfl

theorem cdefArgs_mem {names : List String} :
    ∀ (types : List RrdType) (i : Nat) (t : RrdType) (toks : List TTok)
      (out : List String),
      types.get? i = some t → t.transform = some toks →
      cdefArgs names types = .ok out →
      ("CDEF:c" ++ seriesName t ++ "="
        ++ joinSep "," (toks.map (substTokTotal names (seriesName t)))) ∈ out := by
  intro types
  induction types with
  | nil =>
    intro i t toks out hi htr h
    cases i with
    | zero => exact Option.noConfusion hi
    | succ i2 => exact Option.noConfusion hi
  | cons t0 ts ih =>
    intro i t toks out hi htr h
    unfold cdefArgs at h
    cases hh : cdefFor names t0 with
    | error e => rw [hh] at h; exact Except.noConfusion h
    | ok here =>
      rw [hh] at h
      cases hrest : cdefArgs names ts with
      | error e => rw [hrest] at h; exact Except.noConfusion h
      | ok rest =>
        rw [hrest] at h
        injection h with h2
        subst h2
        cases i with
        | zero =>
          injection hi with hi2
          subst hi2
          have hcd : cdefFor names t0 =
              (do
                let parts ← resolveTransform names (seriesName t0) toks
                pure ["CDEF:c" ++ seriesName t0 ++ "=" ++ joinSep "," parts,
                      "XPORT:c" ++ seriesName t0 ++ ":" ++ seriesName t0]) := by
            unfold cdefFor
            rw [htr]
          rw [hcd] at hh
          cases hp : resolveTransform names (seriesName t0) toks with
          | error e => rw [hp] at hh; exact Except.noConfusion hh
          | ok parts =>
            rw [hp] at hh
            injection hh with hh2
            rw [← resolveTransform_ok hp, ← hh2]
            exact List.mem_append_left rest (List.mem_cons_self _ _)
        | succ i2 =>
          exact List.mem_append_right here (ih i2 t toks rest hi htr hrest)

theorem cdefArgs_err {names : List String} {t : RrdType} {toks : List TTok} {j : Nat}
    (htr : t.transform = some toks) (hmem : TTok.nameRef j ∈ toks)
    (hj : names.length ≤ j) :
    ∀ {types : List RrdType}, t ∈ types → isError (cdefArgs names types) = true := by
  intro types
  induction types with
  | nil => intro ht; exact absurd ht (List.not_mem_nil t)
  | cons t0 ts ih =>
    intro ht
    unfold cdefArgs
    rcases List.mem_cons.mp ht with ht0 | hts
    · subst ht0
      have herr := resolveTransform_err (seriesName t) hj hmem
      have hcd : cdefFor names t =
          (do
            let parts ← resolveTransform names (seriesName t) toks
            pure ["CDEF:c" ++ seriesName t ++ "=" ++ joinSep "," parts,
                  "XPORT:c" ++ seriesName t ++ ":" ++ seriesName t]) := by
        unfold cdefFor
        rw [htr]
      cases hr : resolveTransform names (seriesName t) toks with
      | ok parts => rw [hr] at herr; exact absurd herr (by simp [isError])
      | error e =>
        have hfe : cdefFor names t = .error e := by rw [hcd, hr]; rfl
        rw [hfe]
        rfl
    · cases hh2 : cdefFor names t0 with
      | error e => rfl
      | ok here =>
        have hih := ih hts
        cases hrest : cdefArgs names ts with
        | ok rest => rw [hrest] at hih; exact absurd hih (by simp [isError])
        | error e => rfl

/-- Claim C1 (amended): `get_defs` — and hence `export` — never consults the
filesystem: every successful compilation carries exactly one `DEF:` series
definition per archive type, in order, whether or not the backing `.rrd`
files exist, and an empty archive-type list is the only `RuntimeError` of
this stage (there is no missing-file skip and no `NoDataError`; a missing
file surfaces only later, as a non-zero exit of the external tool). -/
theorem c1_defs_ignore_missing_files (cfg : PluginCfg) (identifier : Option String)
    (types : List RrdType) (extra : List (List XTok)) (args : List String)
    (h : get_defs cfg identifier types extra = .ok args) :
    types ≠ []
    ∧ (defLinesAux cfg identifier types).length = types.length
    ∧ ∃ rest, args = defLinesAux cfg identifier types ++ rest := by
  rcases get_defs_ok_inv h with ⟨hne, cds, ex, _, _, hargs⟩
  exact ⟨hne, defLinesAux_length cfg identifier types,
    ⟨cds ++ ex, by rw [hargs, List.append_assoc]⟩⟩

/-- Closed instance of `c1_defs_ignore_missing_files` at the swap plugin. -/
theorem c1_defs_ignore_missing_files_witness :
    swapTypes ≠ []
    ∧ (defLinesAux swapCfg none swapTypes).length = swapTypes.length
    ∧ ∃ rest, swapArgs = defLinesAux swapCfg none swapTypes ++ rest :=
  c1_defs_ignore_missing_files swapCfg none swapTypes [] swapArgs (by rfl)

/-- Claim C1 is false as stated: for the df plugin instance `/mnt/tank`
with the `df_complex-used` archive file missing and `df_complex-free`
present, the claim predicts an export containing a series definition only
for the present type (one `DEF:`), but the compiled argument list contains
a `DEF:` line for both archive types — nothing is skipped. -/
theorem c1_counterexample :
    ¬ ((get_defs dfCfg (some "/mnt/tank") dfTypes dfExtra).toOption.map
          (fun args => (args.filter (fun a => strStartsWith a "DEF:")).length)
        = some ((dfTypes.filter (fun t =>
            c1FsPresent (escapeColonsStr
              (rrdBasePath ++ "/df-mnt-tank/" ++ t.typeName ++ ".rrd")))).length)) := by
  decide

/-- Claim C2: when `get_defs` resolves the transform of the series at
position `i`, every `%name%` token becomes the name of that series and every
`%name_j%` token becomes the name of the `j`-th series of the same call
(zero-indexed, over the full name table built before resolution); a
`%name_j%` whose index is outside that table makes the call raise
(`KeyError`) instead of producing an argument list. -/
theorem c2_transform_reference_resolution :
    (∀ (cfg : PluginCfg) (identifier : Option String) (types : List RrdType)
        (extra : List (List XTok)) (args : List String) (i : Nat) (t : RrdType)
        (toks : List TTok),
      types.get? i = some t → t.transform = some toks →
      get_defs cfg identifier types extra = .ok args →
      ("CDEF:c" ++ seriesName t ++ "="
        ++ joinSep "," (toks.map (substTokTotal (types.map seriesName) (seriesName t))))
        ∈ args)
    ∧ (∀ (names : List String) (self : String) (j : Nat), names.length ≤ j →
        substTok names self (.nameRef j) = .error "KeyError")
    ∧ (∀ (cfg : PluginCfg) (identifier : Option String) (types : List RrdType)
        (extra : List (List XTok)) (t : RrdType) (toks : List TTok) (j : Nat),
      t ∈ types → t.transform = some toks → TTok.nameRef j ∈ toks →
      types.length ≤ j →
      isError (get_defs cfg identifier types extra) = true) := by
  refine ⟨?_, ?_, ?_⟩
  · intro cfg identifier types extra args i t toks hi htr h
    rcases get_defs_ok_inv h with ⟨_, cds, ex, hc, _, hargs⟩
    subst hargs
    exact List.mem_append_left ex
      (List.mem_append_right (defLinesAux cfg identifier types)
        (cdefArgs_mem types i t toks cds hi htr hc))
  · intro names self j hj
    simp only [substTok]
    rw [List.get?_eq_none.mpr hj]
  · intro cfg identifier types extra t toks j ht htr hmem hj
    have hj2 : (types.map seriesName).length ≤ j := by
      rw [List.length_map]
      exact hj
    have herr := cdefArgs_err htr hmem hj2 ht
    have hne : types ≠ [] := fun h0 => (List.not_mem_nil t) (h0 ▸ ht)
    unfold get_defs
    rw [if_neg hne]
    cases hc : cdefArgs (types.map seriesName) types with
    | ok cds => rw [hc] at herr; exact absurd herr (by simp [isError])
    | error e => rfl

/-- Closed instance of `c2_transform_reference_resolution` at the swap
plugin: the transform of the second series resolves `%name%` to its own
name and `%name_0%` to the name of the first series, `%name_5%` raises at
the substitution level, and a plugin whose transform references `%name_9%`
makes `get_defs` raise. -/
theorem c2_transform_reference_resolution_witness :
    (("CDEF:c" ++ seriesName swapFreeT ++ "="
        ++ joinSep ","
          ([TTok.nameSelf, TTok.lit "UN", TTok.lit "0", TTok.nameSelf, TTok.lit "IF",
            TTok.nameRef 0, TTok.lit "+"].map
            (substTokTotal (swapTypes.map seriesName) (seriesName swapFreeT))))
        ∈ swapArgs)
    ∧ substTok ["a"] "self" (.nameRef 5) = .error "KeyError"
    ∧ isError (get_defs swapCfg none [⟨"swap-used", "value", some [.nameRef 9]⟩] []) = true :=
  ⟨c2_transform_reference_resolution.1 swapCfg none swapTypes [] swapArgs 1 swapFreeT
      [TTok.nameSelf, TTok.lit "UN", TTok.lit "0", TTok.nameSelf, TTok.lit "IF",
        TTok.nameRef 0, TTok.lit "+"] (by rfl) (by rfl) (by rfl),
   c2_transform_reference_resolution.2.1 ["a"] "self" 5 (by decide),
   c2_transform_reference_resolution.2.2 swapCfg none
      [⟨"swap-used", "value", some [.nameRef 9]⟩] [] ⟨"swap-used", "value", some [.nameRef 9]⟩
      [.nameRef 9] 9 (by decide) (by rfl) (by decide) (by decide)⟩

/-- Claim C10: with neither `unit` nor `start` supplied the query window
resolution does not fail — it falls back to the relative `HOURLY` window —
so a page-0 query resolves to the pair of `end-1h` and `now`; and for
every relative query with unit `u` and page `p`, the start is `end-` then
p + 1 then `c`, and the end is `now` when `p = 0` and `now-` then p then
`c` otherwise, where `c` is the lowercased first character of `u`. -/
theorem c10_default_window :
    (∀ (p : Int) (e : Option String),
      rquery_to_start_end ⟨none, p, none, e⟩ = .ok (relWindow "HOURLY" p))
    ∧ rquery_to_start_end ⟨none, 0, none, none⟩ = .ok ("end-1h", "now")
    ∧ (∀ u, u ∈ ["HOUR", "DAY", "WEEK", "MONTH", "YEAR"] → ∀ p : Int,
        rquery_to_start_end ⟨some u, p, none, none⟩ =
          .ok ("end-" ++ toString (p + 1) ++ unitFirstLower u,
               if p = 0 then "now" else "now-" ++ toString p ++ unitFirstLower u)) :=
  ⟨fun _ _ => rfl, by rfl, fun u _ p => rfl⟩

/-- Closed instance of `c10_default_window` at unit `DAY`, page 2. -/
theorem c10_default_window_witness :
    rquery_to_start_end ⟨some "DAY", 2, none, none⟩ =
      .ok ("end-" ++ toString ((2 : Int) + 1) ++ unitFirstLower "DAY",
           if (2 : Int) = 0 then "now"
           else "now-" ++ toString (2 : Int) ++ unitFirstLower "DAY")
    ∧ ("end-" ++ toString ((2 : Int) + 1) ++ unitFirstLower "DAY",
        if (2 : Int) = 0 then "now"
        else "now-" ++ toString (2 : Int) ++ unitFirstLower "DAY") = ("end-3d", "now-2d") :=
  ⟨c10_default_window.2.2 "DAY" (by decide) 2, by decide⟩
